import Mathlib

/-!
Shallow embedding of `replace_txts_with_mapping_csv.py` (the ordered string
mapping core: the `ReplaceMappingCsv` loader and its `replace_text` engine).

Strings are Lean `String`s; where recursion over characters is needed we work
on the underlying `List Char`.  The tabular source is modelled at the logical
level the script reads it at: a list of rows, each a list of string cells
(the first row is the header).  Error messages are abstracted into an
inductive error taxonomy; the line numbers carried by the broken-row error are
kept as naturals (the script formats them into a string, which is elided).
-/

namespace ReplaceTxts

/-! ## Text substitution engine

`pyReplace` models Python's `str.replace(find, repl)` (used at line 255 of the
script): literal, left-to-right, non-overlapping replacement of every
occurrence, where the scan resumes after the inserted replacement.  The
empty-pattern case follows Python, which inserts the replacement before every
character and at the end. -/

/-- Auxiliary recursion for `pyReplace` on character lists; the pattern is
passed as a head character `f0` and tail `frest` so it is never empty. -/
def replaceAux (f0 : Char) (frest repl : List Char) (s : List Char) : List Char :=
  match s with
  | [] => []
  | c :: cs =>
    if (f0 :: frest).isPrefixOf (c :: cs)
    then repl ++ replaceAux f0 frest repl (cs.drop frest.length)
    else c :: replaceAux f0 frest repl cs
termination_by s.length
decreasing_by
  · simp only [List.length_drop, List.length_cons]
    omega
  · simp only [List.length_cons]
    omega

/-- Python `str.replace` on character lists. -/
def pyReplaceL (find repl s : List Char) : List Char :=
  match find with
  | [] => repl ++ s.foldr (fun c acc => c :: (repl ++ acc)) []
  | f0 :: frest => replaceAux f0 frest repl s

/-- Python `str.replace` on strings. -/
def pyReplace (find repl s : String) : String :=
  ⟨pyReplaceL find.data repl.data s.data⟩

/-- Model of `ReplaceMappingCsv.replace_text` (script lines 250–256): fold the
ordered mapping over the input, replacing with each (find, replace) pair in
insertion order and feeding the result forward. -/
def replace_text (mapping : List (String × String)) (data : String) : String :=
  mapping.foldl (fun acc fr => pyReplace fr.1 fr.2 acc) data

/-! ## Mapping table loader

The loader (`ReplaceMappingCsv.__read_csv`, `__create_mapping_dict_from_df`,
`__read_csv_into_mapping_dict`, script lines 142–244) is modelled over the
logical table: `rows : List (List String)`, the header first.  The pandas
materialization step (line 187, `keep_default_na=False`, `dtype=str`,
default `skip_blank_lines=True`) reads the same table keeping empty cells as
empty strings and dropping rows with zero cells, which the model renders as a
filter on cell count. -/

/-- Error taxonomy of the loader, following the validation failures the
script raises as `ValueError`s (messages abstracted into constructors). -/
inductive LoadError where
  | noHeaderRow : LoadError
  | missingColumn (names : List String) : LoadError
  | duplicatedColumn (names : List String) : LoadError
  | brokenRow (lineIds : List Nat) : LoadError
  | emptyResultSet : LoadError
  | duplicatedFindValue (values : List String) : LoadError
  | blankFindValue : LoadError
deriving DecidableEq

/-- Broken-line collection of `__read_csv` (script lines 170–174): data rows
are enumerated starting at line 2, and every row whose cell count is neither 0
nor the header's column count is collected. -/
def broken_line_ids (headersLen : Nat) (dataRows : List (List String)) : List Nat :=
  dataRows.enum.filterMap fun ir =>
    if ir.2.length ≠ 0 ∧ ir.2.length ≠ headersLen then some (ir.1 + 2) else none

/-- Model of `ReplaceMappingCsv.__read_csv` (script lines 142–194): header
extraction, then the checks in raising order missing columns → duplicated
columns → broken rows, then materialization (zero-cell rows dropped) and the
empty check when `allow_empty` is false.  Returns the header and the
materialized data rows. -/
def read_csv (rows : List (List String)) (allow_empty : Bool)
    (use_columns : List String) :
    Except LoadError (List String × List (List String)) :=
  match rows with
  | [] => .error .noHeaderRow
  | headers :: dataRows =>
    let missing_columns := use_columns.filter fun col => ¬ headers.contains col
    let duplicated_columns := use_columns.filter fun col => headers.count col > 1
    let broken := broken_line_ids headers.length dataRows
    if missing_columns ≠ [] then .error (.missingColumn missing_columns)
    else if duplicated_columns ≠ [] then .error (.duplicatedColumn duplicated_columns)
    else if broken ≠ [] then .error (.brokenRow broken)
    else
      let df := dataRows.filter fun row => row.length ≠ 0
      if allow_empty = false ∧ df.length = 0 then .error .emptyResultSet
      else .ok (headers, df)

/-- Loop of `__create_mapping_dict_from_df` (script lines 211–222): first
occurrence of a find value wins, later occurrences are recorded as duplicated
at most once each.  The mapping is an ordered association list. -/
def createMappingAux : List (String × String) → List (String × String) →
    List String → List (String × String) × List String
  | [], mapping, dups => (mapping, dups)
  | fr :: rest, mapping, dups =>
    if (mapping.lookup fr.1).isSome then
      if dups.contains fr.1 then createMappingAux rest mapping dups
      else createMappingAux rest mapping (dups ++ [fr.1])
    else createMappingAux rest (mapping ++ [fr]) dups

/-- Model of `ReplaceMappingCsv.__create_mapping_dict_from_df` (script lines
196–222) on the extracted (find, replace) pairs. -/
def create_mapping_dict_from_df (pairs : List (String × String)) :
    List (String × String) × List String :=
  createMappingAux pairs [] []

/-- Extraction of the (find, replace) cell pairs from the materialized rows
(`df[list(two_columns)].values`, script line 213): each requested column is
read at the index of its unique occurrence in the header. -/
def extract_pairs (headers : List String) (df : List (List String))
    (find_col replace_col : String) : List (String × String) :=
  df.map fun row =>
    (row.getD (headers.indexOf find_col) "", row.getD (headers.indexOf replace_col) "")

/-- Model of `ReplaceMappingCsv.__read_csv_into_mapping_dict` (script lines
224–244): read with `allow_empty=False` and the two requested columns, build
the mapping, then fail on duplicated find values, then on a blank find key. -/
def read_csv_into_mapping_dict (rows : List (List String))
    (find_col replace_col : String) :
    Except LoadError (List (String × String)) :=
  match read_csv rows false [find_col, replace_col] with
  | .error e => .error e
  | .ok (headers, df) =>
    let md := create_mapping_dict_from_df (extract_pairs headers df find_col replace_col)
    if md.2 ≠ [] then .error (.duplicatedFindValue md.2)
    else if (md.1.lookup "").isSome then .error .blankFindValue
    else .ok md.1

/-! ## Helper lemmas about the substitution engine -/

/-- A successful `isPrefixOf` test exhibits the list as pattern ++ rest. -/
theorem exists_append_of_isPrefixOf :
    ∀ (l s : List Char), l.isPrefixOf s → ∃ t, s = l ++ t := by
  intro l
  induction l with
  | nil => intro s _; exact ⟨s, rfl⟩
  | cons a as ih =>
    intro s h
    cases s with
    | nil => simp [List.isPrefixOf] at h
    | cons b bs =>
      simp only [List.isPrefixOf, Bool.and_eq_true, beq_iff_eq] at h
      obtain ⟨t, ht⟩ := ih bs h.2
      exact ⟨t, by rw [h.1, ht]; rfl⟩

/-- When the pattern occurs nowhere in `s` (not an infix), `replaceAux`
returns `s` unchanged. -/
theorem replaceAux_of_not_infix (f0 : Char) (frest repl : List Char) :
    ∀ s : List Char, ¬ ((f0 :: frest) <:+: s) → replaceAux f0 frest repl s = s := by
  intro s
  induction s with
  | nil => intro _; rw [replaceAux]
  | cons c cs ih =>
    intro h
    have hpre : ¬ ((f0 :: frest).isPrefixOf (c :: cs) = true) := by
      intro hp
      obtain ⟨t, ht⟩ := exists_append_of_isPrefixOf _ _ hp
      exact h ⟨[], t, by simp [ht]⟩
    rw [replaceAux, if_neg hpre, ih]
    intro hinf
    obtain ⟨u, v, huv⟩ := hinf
    exact h ⟨c :: u, v, by simp [← huv]⟩

/-- When the find string occurs nowhere in `s`, `pyReplace` returns `s`. -/
theorem pyReplace_of_not_infix (find repl s : String)
    (h : ¬ (find.data <:+: s.data)) : pyReplace find repl s = s := by
  cases hf : find.data with
  | nil =>
    exact absurd ⟨[], s.data, by simp⟩ (hf ▸ h)
  | cons f0 frest =>
    have : pyReplaceL find.data repl.data s.data = s.data := by
      rw [hf]
      exact replaceAux_of_not_infix f0 frest repl.data s.data (hf ▸ h)
    simp only [pyReplace, this]

/-- Replacing a pattern by itself is the identity. -/
theorem replaceAux_self (f0 : Char) (frest : List Char) (s : List Char) :
    replaceAux f0 frest (f0 :: frest) s = s := by
  generalize hn : s.length = n
  induction n using Nat.strong_induction_on generalizing s with
  | _ n ih =>
    cases s with
    | nil => rw [replaceAux]
    | cons c cs =>
      by_cases hp : (f0 :: frest).isPrefixOf (c :: cs) = true
      · obtain ⟨t, ht⟩ := exists_append_of_isPrefixOf _ _ hp
        have hdrop : cs.drop frest.length = t := by
          have h1 : (c :: cs).drop (f0 :: frest).length = t := by
            rw [ht]; exact List.drop_left _ _
          simpa using h1
        have hlt : t.length < n := by
          have : (c :: cs).length = (f0 :: frest).length + t.length := by
            rw [ht]; exact List.length_append _ _
          simp only [List.length_cons] at this hn
          omega
        rw [replaceAux, if_pos hp, hdrop, ih t.length hlt t rfl]
        exact ht.symm
      · rw [replaceAux, if_neg hp]
        have hcs : cs.length < n := by simp only [List.length_cons] at hn; omega
        rw [ih cs.length hcs cs rfl]

/-- Replacing a non-empty string by itself is the identity on any input. -/
theorem pyReplace_self (f s : String) (hf : f ≠ "") : pyReplace f f s = s := by
  cases hd : f.data with
  | nil =>
    apply absurd _ hf
    cases f with
    | mk d =>
      simp only [String.data] at hd
      subst hd
      rfl
  | cons f0 frest =>
    simp only [pyReplace, pyReplaceL, hd, replaceAux_self]

/-- Folding a mapping whose entries all replace a non-empty string by itself
is the identity. -/
theorem replace_text_self_id (m : List (String × String))
    (h : ∀ p ∈ m, p.1 = p.2 ∧ p.1 ≠ "") (s : String) : replace_text m s = s := by
  induction m generalizing s with
  | nil => rfl
  | cons fr rest ih =>
    have h1 := h fr (by simp)
    have h2 : pyReplace fr.1 fr.2 s = s := by
      rw [← h1.1]; exact pyReplace_self fr.1 s h1.2
    simp only [replace_text, List.foldl_cons, h2]
    exact ih (fun p hp => h p (by simp [hp])) s

/-! ## Helper lemmas about the mapping construction -/

/-- Lookup in the mapping built by `createMappingAux`: an existing binding in
the accumulator wins, otherwise the first matching pair of the input wins. -/
theorem createMappingAux_lookup (k : String) :
    ∀ (pairs m : List (String × String)) (d : List String),
      ((createMappingAux pairs m d).1).lookup k =
        (m.lookup k).or ((pairs.find? fun p => p.1 == k).map Prod.snd) := by
  intro pairs
  induction pairs with
  | nil => intro m d; simp [createMappingAux]
  | cons fr rest ih =>
    intro m d
    rw [createMappingAux]
    by_cases hm : (m.lookup fr.1).isSome
    · rw [if_pos hm]
      have key : ∀ d' : List String,
          ((createMappingAux rest m d').1).lookup k =
            (m.lookup k).or (((fr :: rest).find? fun p => p.1 == k).map Prod.snd) := by
        intro d'
        rw [ih m d']
        by_cases hk : fr.1 = k
        · subst hk
          obtain ⟨v, hv⟩ := Option.isSome_iff_exists.mp hm
          rw [List.find?_cons_of_pos _ (by simp), hv, Option.or_some, Option.or_some]
        · rw [List.find?_cons_of_neg _ (by simp [hk])]
      split <;> exact key _
    · rw [if_neg hm]
      rw [ih (m ++ [fr]) d]
      rw [List.lookup_append]
      by_cases hk : fr.1 = k
      · subst hk
        have hnone : m.lookup fr.1 = none := Option.not_isSome_iff_eq_none.mp hm
        rw [hnone, List.find?_cons_of_pos _ (by simp)]
        cases fr with
        | mk a b => simp [List.lookup_cons]
      · rw [List.find?_cons_of_neg _ (by simp [hk])]
        cases fr with
        | mk a b =>
          have hba : (k == a) = false := by
            simp only [beq_eq_false_iff_ne, ne_eq]
            intro hka
            exact hk (by simp [hka])
          have hsingle : ([(a, b)] : List (String × String)).lookup k = none := by
            rw [List.lookup_cons, hba]
            rfl
          rw [hsingle, Option.or_none]

/-- The duplicated-values list built by `createMappingAux` stays without
repetitions. -/
theorem createMappingAux_dups_nodup :
    ∀ (pairs m : List (String × String)) (d : List String),
      d.Nodup → ((createMappingAux pairs m d).2).Nodup := by
  intro pairs
  induction pairs with
  | nil => intro m d h; simpa [createMappingAux] using h
  | cons fr rest ih =>
    intro m d h
    rw [createMappingAux]
    by_cases hm : (m.lookup fr.1).isSome
    · rw [if_pos hm]
      by_cases hd : d.contains fr.1
      · simp only [hd, ite_true]; exact ih m d h
      · simp only [hd, ite_false]
        apply ih
        have hnot : fr.1 ∉ d := by simpa using hd
        simp [List.nodup_append, h, hnot]
    · rw [if_neg hm]; exact ih (m ++ [fr]) d h

/-- Every entry of the mapping built by `createMappingAux` comes from the
accumulator or from the input pairs. -/
theorem createMappingAux_fst_subset :
    ∀ (pairs m : List (String × String)) (d : List String)
      (e : String × String), e ∈ (createMappingAux pairs m d).1 → e ∈ m ∨ e ∈ pairs := by
  intro pairs
  induction pairs with
  | nil => intro m d e h; simp only [createMappingAux] at h; exact Or.inl h
  | cons fr rest ih =>
    intro m d e h
    rw [createMappingAux] at h
    by_cases hm : (m.lookup fr.1).isSome
    · rw [if_pos hm] at h
      have h' : e ∈ m ∨ e ∈ rest := by
        by_cases hd : d.contains fr.1
        · simp only [hd, ite_true] at h; exact ih m d e h
        · simp only [hd, ite_false] at h; exact ih m _ e h
      rcases h' with h' | h'
      · exact Or.inl h'
      · exact Or.inr (by simp [h'])
    · rw [if_neg hm] at h
      rcases ih (m ++ [fr]) d e h with h' | h'
      · rcases List.mem_append.mp h' with h'' | h''
        · exact Or.inl h''
        · exact Or.inr (by simp at h''; simp [h''])
      · exact Or.inr (by simp [h'])

/-- Membership in the duplicated-values list of `createMappingAux`: a key is
recorded exactly when it was already recorded, or was already bound and occurs
among the pairs, or occurs at least twice among the pairs. -/
theorem createMappingAux_dups_mem (k : String) :
    ∀ (pairs m : List (String × String)) (d : List String),
      k ∈ (createMappingAux pairs m d).2 ↔
        k ∈ d ∨ ((m.lookup k).isSome ∧ k ∈ pairs.map Prod.fst) ∨
          2 ≤ (pairs.map Prod.fst).count k := by
  intro pairs
  induction pairs with
  | nil => intro m d; simp [createMappingAux]
  | cons fr rest ih =>
    intro m d
    rw [createMappingAux]
    by_cases hk : fr.1 = k
    · subst hk
      have hmemcons : fr.1 ∈ (fr :: rest).map Prod.fst := by simp
      by_cases hm : (m.lookup fr.1).isSome
      · rw [if_pos hm]
        by_cases hd : d.contains fr.1
        · have hdm : fr.1 ∈ d := by simpa using hd
          rw [if_pos hd]
          rw [ih m d]
          exact iff_of_true (Or.inl hdm) (Or.inl hdm)
        · rw [if_neg hd]
          rw [ih m (d ++ [fr.1])]
          exact iff_of_true (Or.inl (by simp)) (Or.inr (Or.inl ⟨hm, hmemcons⟩))
      · rw [if_neg hm]
        rw [ih (m ++ [fr]) d]
        have happ : ((m ++ [fr]).lookup fr.1).isSome := by
          rw [List.lookup_append, Option.not_isSome_iff_eq_none.mp hm, Option.none_or]
          cases fr with
          | mk a b => simp [List.lookup_cons]
        have hone : ((fr :: rest).map Prod.fst).count fr.1 =
            (rest.map Prod.fst).count fr.1 + 1 := by
          simp [List.count_cons]
        rw [hone]
        constructor
        · rintro (h | h | h)
          · exact Or.inl h
          · have hpos := List.count_pos_iff.mpr h.2
            right; right; omega
          · right; right; omega
        · rintro (h | h | h)
          · exact Or.inl h
          · exact absurd h.1 hm
          · right; left
            exact ⟨happ, List.count_pos_iff.mp (by omega)⟩
    · have hkk : ¬ k = fr.1 := fun h => hk h.symm
      have hcnt' : ((fr :: rest).map Prod.fst).count k = (rest.map Prod.fst).count k := by
        simp [List.count_cons, hk]
      have hmemk : k ∈ (fr :: rest).map Prod.fst ↔ k ∈ rest.map Prod.fst := by
        simp only [List.map_cons, List.mem_cons]
        constructor
        · rintro (h | h)
          · exact absurd h hkk
          · exact h
        · exact Or.inr
      by_cases hm : (m.lookup fr.1).isSome
      · rw [if_pos hm]
        by_cases hd : d.contains fr.1
        · rw [if_pos hd]
          rw [ih m d, hcnt', hmemk]
        · rw [if_neg hd]
          rw [ih m (d ++ [fr.1]), hcnt', hmemk]
          have hda : k ∈ d ++ [fr.1] ↔ k ∈ d := by
            simp only [List.mem_append, List.mem_singleton]
            constructor
            · rintro (h | h)
              · exact h
              · exact absurd h hkk
            · exact Or.inl
          rw [hda]
      · rw [if_neg hm]
        rw [ih (m ++ [fr]) d, hcnt', hmemk]
        have hlk : (m ++ [fr]).lookup k = m.lookup k := by
          rw [List.lookup_append]
          cases fr with
          | mk a b =>
            have hba : (k == a) = false := by
              simp only [beq_eq_false_iff_ne, ne_eq]
              intro hka
              exact hk (by simp [hka])
            have hsingle : ([(a, b)] : List (String × String)).lookup k = none := by
              rw [List.lookup_cons, hba]
              rfl
            rw [hsingle, Option.or_none]
        rw [hlk]

/-- Corollary: the duplicated-values list of the mapping construction holds
exactly the find values occurring at least twice. -/
theorem create_mapping_dict_dups_mem (pairs : List (String × String)) (k : String) :
    k ∈ (create_mapping_dict_from_df pairs).2 ↔
      2 ≤ (pairs.map Prod.fst).count k := by
  rw [create_mapping_dict_from_df, createMappingAux_dups_mem]
  simp

/-! ## Helper lemmas about the loader's validation stages -/

/-- Characterization of the collected broken line numbers. -/
theorem mem_broken_line_ids (hl : Nat) (dataRows : List (List String)) (n : Nat) :
    n ∈ broken_line_ids hl dataRows ↔
      ∃ i row, dataRows[i]? = some row ∧ n = i + 2 ∧
        row.length ≠ 0 ∧ row.length ≠ hl := by
  simp only [broken_line_ids, List.mem_filterMap]
  constructor
  · rintro ⟨⟨i, row⟩, hmem, hf⟩
    rw [List.mk_mem_enum_iff_getElem?] at hmem
    by_cases hc : row.length ≠ 0 ∧ row.length ≠ hl
    · rw [if_pos hc] at hf
      exact ⟨i, row, hmem, (Option.some.inj hf).symm, hc.1, hc.2⟩
    · rw [if_neg hc] at hf
      exact absurd hf (by simp)
  · rintro ⟨i, row, hget, rfl, h0, hhl⟩
    refine ⟨(i, row), ?_, ?_⟩
    · rw [List.mk_mem_enum_iff_getElem?]
      exact hget
    · rw [if_pos ⟨h0, hhl⟩]

/-- A source all of whose data rows are empty or of header width collects no
broken line. -/
theorem broken_line_ids_eq_nil (hl : Nat) (dataRows : List (List String))
    (h : ∀ row ∈ dataRows, row.length = 0 ∨ row.length = hl) :
    broken_line_ids hl dataRows = [] := by
  rw [broken_line_ids, List.filterMap_eq_nil_iff]
  rintro ⟨i, row⟩ hmem
  rw [List.mk_mem_enum_iff_getElem?] at hmem
  have hrow := h row (List.getElem?_mem hmem)
  rw [if_neg]
  rcases hrow with h' | h'
  · exact fun hc => hc.1 h'
  · exact fun hc => hc.2 h'

/-- Stage 1 of `__read_csv`: a non-empty missing-columns list raises the
missing-column error, before any other check. -/
theorem read_csv_missing (header : List String) (dataRows : List (List String))
    (allow_empty : Bool) (use_columns : List String)
    (h : (use_columns.filter fun c => ¬ header.contains c) ≠ []) :
    read_csv (header :: dataRows) allow_empty use_columns =
      .error (.missingColumn (use_columns.filter fun c => ¬ header.contains c)) := by
  simp only [read_csv]
  rw [if_pos h]

/-- Stage 2 of `__read_csv`: with no missing column, a non-empty
duplicated-columns list raises the duplicated-column error. -/
theorem read_csv_duplicated (header : List String) (dataRows : List (List String))
    (allow_empty : Bool) (use_columns : List String)
    (hm : (use_columns.filter fun c => ¬ header.contains c) = [])
    (hd : (use_columns.filter fun c => header.count c > 1) ≠ []) :
    read_csv (header :: dataRows) allow_empty use_columns =
      .error (.duplicatedColumn (use_columns.filter fun c => header.count c > 1)) := by
  simp only [read_csv]
  rw [if_neg (fun hne => hne hm), if_pos hd]

/-- Stage 3 of `__read_csv`: with requested columns present and unique,
broken rows raise the broken-row error listing every broken line number. -/
theorem read_csv_broken (header : List String) (dataRows : List (List String))
    (allow_empty : Bool) (use_columns : List String)
    (hm : (use_columns.filter fun c => ¬ header.contains c) = [])
    (hd : (use_columns.filter fun c => header.count c > 1) = [])
    (hb : broken_line_ids header.length dataRows ≠ []) :
    read_csv (header :: dataRows) allow_empty use_columns =
      .error (.brokenRow (broken_line_ids header.length dataRows)) := by
  simp only [read_csv]
  rw [if_neg (fun hne => hne hm), if_neg (fun hne => hne hd), if_pos hb]

/-- Stage 4 of `__read_csv`: all structural checks passed and an empty
materialized table with `allow_empty=False` raises the empty error. -/
theorem read_csv_empty (header : List String) (dataRows : List (List String))
    (use_columns : List String)
    (hm : (use_columns.filter fun c => ¬ header.contains c) = [])
    (hd : (use_columns.filter fun c => header.count c > 1) = [])
    (hb : broken_line_ids header.length dataRows = [])
    (he : (dataRows.filter fun row => row.length ≠ 0).length = 0) :
    read_csv (header :: dataRows) false use_columns = .error .emptyResultSet := by
  simp only [read_csv]
  rw [if_neg (fun hne => hne hm), if_neg (fun hne => hne hd), if_neg (fun hne => hne hb),
    if_pos ⟨by simp, he⟩]

/-- Success case of `__read_csv`: all checks pass and the materialized rows
are the data rows with at least one cell. -/
theorem read_csv_ok (header : List String) (dataRows : List (List String))
    (use_columns : List String)
    (hm : (use_columns.filter fun c => ¬ header.contains c) = [])
    (hd : (use_columns.filter fun c => header.count c > 1) = [])
    (hb : broken_line_ids header.length dataRows = [])
    (he : (dataRows.filter fun row => row.length ≠ 0).length ≠ 0) :
    read_csv (header :: dataRows) false use_columns =
      .ok (header, dataRows.filter fun row => row.length ≠ 0) := by
  simp only [read_csv]
  rw [if_neg (fun hne => hne hm), if_neg (fun hne => hne hd), if_neg (fun hne => hne hb),
    if_neg (fun hc => he hc.2)]

/-- Lifting a `__read_csv` failure through `__read_csv_into_mapping_dict`. -/
theorem load_of_read_csv_error (rows : List (List String)) (f r : String)
    (e : LoadError) (h : read_csv rows false [f, r] = .error e) :
    read_csv_into_mapping_dict rows f r = .error e := by
  simp only [read_csv_into_mapping_dict, h]

/-- After a successful `__read_csv`, a non-empty duplicated-find list raises
the duplicated-find error, before the blank-find check. -/
theorem load_duplicated_find (rows : List (List String)) (f r : String)
    (headers : List String) (df : List (List String))
    (hok : read_csv rows false [f, r] = .ok (headers, df))
    (hd : (create_mapping_dict_from_df (extract_pairs headers df f r)).2 ≠ []) :
    read_csv_into_mapping_dict rows f r =
      .error (.duplicatedFindValue
        (create_mapping_dict_from_df (extract_pairs headers df f r)).2) := by
  simp only [read_csv_into_mapping_dict, hok]
  rw [if_pos hd]

/-- After a successful `__read_csv` with no duplicated find value, a blank
find key raises the blank-find error. -/
theorem load_blank_find (rows : List (List String)) (f r : String)
    (headers : List String) (df : List (List String))
    (hok : read_csv rows false [f, r] = .ok (headers, df))
    (hd : (create_mapping_dict_from_df (extract_pairs headers df f r)).2 = [])
    (hb : (((create_mapping_dict_from_df (extract_pairs headers df f r)).1).lookup "").isSome) :
    read_csv_into_mapping_dict rows f r = .error .blankFindValue := by
  simp only [read_csv_into_mapping_dict, hok]
  rw [if_neg (fun hne => hne hd), if_pos hb]

/-- Success case of `__read_csv_into_mapping_dict`. -/
theorem load_ok (rows : List (List String)) (f r : String)
    (headers : List String) (df : List (List String))
    (hok : read_csv rows false [f, r] = .ok (headers, df))
    (hd : (create_mapping_dict_from_df (extract_pairs headers df f r)).2 = [])
    (hb : ¬ (((create_mapping_dict_from_df (extract_pairs headers df f r)).1).lookup "").isSome) :
    read_csv_into_mapping_dict rows f r =
      .ok (create_mapping_dict_from_df (extract_pairs headers df f r)).1 := by
  simp only [read_csv_into_mapping_dict, hok]
  rw [if_neg (fun hne => hne hd), if_neg hb]

/-! ## Claim theorems -/

/-- C1: `replace_text` applies the (find, replace) pairs strictly in mapping
insertion order, feeding each rule's output into the next rule (splitting the
mapping anywhere shows the second part runs on the first part's output), and
on the mapping [(a→b), (b→c)] the input "a" yields "c", not "b". -/
theorem C1_sequential_composition :
    (∀ (m₁ m₂ : List (String × String)) (s : String),
        replace_text (m₁ ++ m₂) s = replace_text m₂ (replace_text m₁ s)) ∧
      replace_text [("a", "b"), ("b", "c")] "a" = "c" := by
  constructor
  · intro m₁ m₂ s
    simp only [replace_text, List.foldl_append]
  · simp [replace_text, pyReplace, pyReplaceL, replaceAux, List.isPrefixOf]

/-- C2: the mapping construction keeps the first occurrence's replace value
for every find value (lookup returns the first matching pair), records each
duplicated find value at most once (the duplicate list holds exactly the find
values occurring at least twice, without repetition), and on rows
[(x,1), (x,2)] the intermediate mapping is {x: 1} while the load as a whole
fails with the duplicated-find error listing "x". -/
theorem C2_first_wins_duplicate_detection :
    (∀ (pairs : List (String × String)) (k : String),
        ((create_mapping_dict_from_df pairs).1).lookup k =
          ((pairs.find? fun p => p.1 == k).map Prod.snd)) ∧
      (∀ (pairs : List (String × String)) (k : String),
          k ∈ (create_mapping_dict_from_df pairs).2 ↔
            2 ≤ (pairs.map Prod.fst).count k) ∧
      (∀ pairs : List (String × String),
          ((create_mapping_dict_from_df pairs).2).Nodup) ∧
      (create_mapping_dict_from_df [("x", "1"), ("x", "2")]).1 = [("x", "1")] ∧
      read_csv_into_mapping_dict [["f", "r"], ["x", "1"], ["x", "2"]] "f" "r" =
        .error (.duplicatedFindValue ["x"]) := by
  refine ⟨?_, ?_, ?_, rfl, rfl⟩
  · intro pairs k
    rw [create_mapping_dict_from_df, createMappingAux_lookup, List.lookup_nil,
      Option.none_or]
  · exact create_mapping_dict_dups_mem
  · intro pairs
    exact createMappingAux_dups_nodup pairs [] [] List.nodup_nil

/-- C3: single-rule replacement is literal, greedy, left-to-right and
non-overlapping: the mapping [(aa→b)] applied to "aaa" yields "ba". -/
theorem C3_nonoverlapping_replacement :
    replace_text [("aa", "b")] "aaa" = "ba" := by
  simp [replace_text, pyReplace, pyReplaceL, replaceAux, List.isPrefixOf]

/-- C4: applying a mapping to a string containing no occurrence of any find
string of the mapping returns the input unchanged (value equality). -/
theorem C4_no_match_passthrough (mapping : List (String × String)) (s : String)
    (h : ∀ p ∈ mapping, ¬ (p.1.data <:+: s.data)) :
    replace_text mapping s = s := by
  induction mapping with
  | nil => rfl
  | cons fr rest ih =>
    have h1 : pyReplace fr.1 fr.2 s = s :=
      pyReplace_of_not_infix fr.1 fr.2 s (h fr (by simp))
    simp only [replace_text, List.foldl_cons, h1]
    exact ih (fun p hp => h p (by simp [hp]))

/-- Witness for C4 at a concrete mapping and input. -/
theorem C4_no_match_passthrough_witness :
    (∀ p ∈ ([("x", "y")] : List (String × String)), ¬ (p.1.data <:+: "ab".data)) ∧
      replace_text [("x", "y")] "ab" = "ab" :=
  ⟨by decide, C4_no_match_passthrough [("x", "y")] "ab" (by decide)⟩

/-- Requested columns all present in the header give an empty missing list. -/
theorem filter_not_contains_eq_nil (header cols : List String)
    (h : ∀ c ∈ cols, c ∈ header) :
    (cols.filter fun c => ¬ header.contains c) = [] := by
  rw [List.filter_eq_nil_iff]
  intro c hc
  simp [h c hc]

/-- Requested columns all unique in the header give an empty duplicated
list. -/
theorem filter_count_gt_eq_nil (header cols : List String)
    (h : ∀ c ∈ cols, header.count c ≤ 1) :
    (cols.filter fun c => header.count c > 1) = [] := by
  rw [List.filter_eq_nil_iff]
  intro c hc
  have := h c hc
  simp only [gt_iff_lt, decide_eq_true_eq]
  omega

/-- C5: loader checks run in the fixed order missing columns → duplicated
columns → broken rows → empty result set → duplicated find values → blank
find value: each stage's error is raised exactly when its condition holds and
every earlier stage passed, irrespective of later defects; in particular a
source with both a missing requested column and a broken row fails with the
missing-column error. -/
theorem C5_check_order :
    (∀ (header : List String) (dataRows : List (List String)) (f r : String),
        (¬ f ∈ header ∨ ¬ r ∈ header) →
        read_csv_into_mapping_dict (header :: dataRows) f r =
          .error (.missingColumn ([f, r].filter fun c => ¬ header.contains c))) ∧
      (∀ (header : List String) (dataRows : List (List String)) (f r : String),
          f ∈ header → r ∈ header → (1 < header.count f ∨ 1 < header.count r) →
          read_csv_into_mapping_dict (header :: dataRows) f r =
            .error (.duplicatedColumn ([f, r].filter fun c => header.count c > 1))) ∧
      (∀ (header : List String) (dataRows : List (List String)) (f r : String),
          header.count f = 1 → header.count r = 1 →
          broken_line_ids header.length dataRows ≠ [] →
          read_csv_into_mapping_dict (header :: dataRows) f r =
            .error (.brokenRow (broken_line_ids header.length dataRows))) ∧
      (∀ (header : List String) (dataRows : List (List String)) (f r : String),
          header.count f = 1 → header.count r = 1 →
          broken_line_ids header.length dataRows = [] →
          (dataRows.filter fun row => row.length ≠ 0) = [] →
          read_csv_into_mapping_dict (header :: dataRows) f r =
            .error .emptyResultSet) ∧
      (∀ (rows : List (List String)) (f r : String) (headers : List String)
          (df : List (List String)),
          read_csv rows false [f, r] = .ok (headers, df) →
          (create_mapping_dict_from_df (extract_pairs headers df f r)).2 ≠ [] →
          read_csv_into_mapping_dict rows f r =
            .error (.duplicatedFindValue
              (create_mapping_dict_from_df (extract_pairs headers df f r)).2)) ∧
      (∀ (rows : List (List String)) (f r : String) (headers : List String)
          (df : List (List String)),
          read_csv rows false [f, r] = .ok (headers, df) →
          (create_mapping_dict_from_df (extract_pairs headers df f r)).2 = [] →
          (((create_mapping_dict_from_df (extract_pairs headers df f r)).1).lookup "").isSome →
          read_csv_into_mapping_dict rows f r = .error .blankFindValue) ∧
      read_csv_into_mapping_dict [["f", "r"], ["a"]] "g" "r" =
        .error (.missingColumn ["g"]) := by
  refine ⟨?_, ?_, ?_, ?_, load_duplicated_find, load_blank_find, rfl⟩
  · intro header dataRows f r h
    apply load_of_read_csv_error
    apply read_csv_missing
    intro hnil
    rw [List.filter_eq_nil_iff] at hnil
    rcases h with h | h
    · exact absurd (by simpa using hnil f (by simp)) (fun h' => h h')
    · exact absurd (by simpa using hnil r (by simp)) (fun h' => h h')
  · intro header dataRows f r hf hr h
    apply load_of_read_csv_error
    apply read_csv_duplicated
    · exact filter_not_contains_eq_nil header [f, r]
        (by intro c hc; rcases List.mem_pair.mp hc with rfl | rfl <;> assumption)
    · intro hnil
      rw [List.filter_eq_nil_iff] at hnil
      rcases h with h | h
      · have := hnil f (by simp)
        simp only [gt_iff_lt, decide_eq_true_eq] at this
        omega
      · have := hnil r (by simp)
        simp only [gt_iff_lt, decide_eq_true_eq] at this
        omega
  · intro header dataRows f r hf hr hb
    apply load_of_read_csv_error
    apply read_csv_broken
    · refine filter_not_contains_eq_nil header [f, r] ?_
      intro c hc
      rcases List.mem_pair.mp hc with rfl | rfl
      · exact List.count_pos_iff.mp (by omega)
      · exact List.count_pos_iff.mp (by omega)
    · refine filter_count_gt_eq_nil header [f, r] ?_
      intro c hc
      rcases List.mem_pair.mp hc with rfl | rfl <;> omega
    · exact hb
  · intro header dataRows f r hf hr hb he
    apply load_of_read_csv_error
    apply read_csv_empty
    · refine filter_not_contains_eq_nil header [f, r] ?_
      intro c hc
      rcases List.mem_pair.mp hc with rfl | rfl
      · exact List.count_pos_iff.mp (by omega)
      · exact List.count_pos_iff.mp (by omega)
    · refine filter_count_gt_eq_nil header [f, r] ?_
      intro c hc
      rcases List.mem_pair.mp hc with rfl | rfl <;> omega
    · exact hb
    · rw [he]
      rfl

/-- Witness for C5: a source whose requested find column is present twice in
the header fails with the duplicated-column error. -/
theorem C5_check_order_witness :
    read_csv_into_mapping_dict [["f", "f", "r"], ["a", "b", "c"]] "f" "r" =
      .error (.duplicatedColumn ["f"]) :=
  C5_check_order.2.1 ["f", "f", "r"] [["a", "b", "c"]] "f" "r" (by decide) (by decide)
    (by decide)

/-- C6: a data row is broken exactly when its cell count is neither 0 nor the
header's column count; the collected line numbers are 1-indexed counting the
header as line 1 (the row at data index i is line i + 2), and with the
requested columns present and unique a load with any broken row fails once
with the broken-row error listing all of them. -/
theorem C6_broken_rows (header : List String) (dataRows : List (List String))
    (f r : String) (n : Nat) :
    (n ∈ broken_line_ids header.length dataRows ↔
      ∃ i row, dataRows[i]? = some row ∧ n = i + 2 ∧
        row.length ≠ 0 ∧ row.length ≠ header.length) ∧
      (header.count f = 1 → header.count r = 1 →
        broken_line_ids header.length dataRows ≠ [] →
        read_csv_into_mapping_dict (header :: dataRows) f r =
          .error (.brokenRow (broken_line_ids header.length dataRows))) := by
  constructor
  · exact mem_broken_line_ids header.length dataRows n
  · intro hf hr hb
    apply load_of_read_csv_error
    apply read_csv_broken
    · refine filter_not_contains_eq_nil header [f, r] ?_
      intro c hc
      rcases List.mem_pair.mp hc with rfl | rfl
      · exact List.count_pos_iff.mp (by omega)
      · exact List.count_pos_iff.mp (by omega)
    · refine filter_count_gt_eq_nil header [f, r] ?_
      intro c hc
      rcases List.mem_pair.mp hc with rfl | rfl <;> omega
    · exact hb

/-- Witness for C6: a 2-column source with a 1-cell row at line 2 and a
3-cell row at line 4 fails once listing both line numbers. -/
theorem C6_broken_rows_witness :
    read_csv_into_mapping_dict [["f", "r"], ["1"], ["2", "3"], ["4", "5", "6"]] "f" "r" =
      .error (.brokenRow [2, 4]) :=
  (C6_broken_rows ["f", "r"] [["1"], ["2", "3"], ["4", "5", "6"]] "f" "r" 2).2
    (by decide) (by decide) (by decide)

/-- C7 counterexample: a data row all of whose cells are blank is NOT always
skipped without error.  With a 2-column header, the all-blank 2-cell row
["", ""] is materialized and contributes the blank find key, so the load
fails with the blank-find error instead of succeeding with {a: b}; and with a
3-column header, the all-blank 2-cell row is a broken line. -/
theorem C7_counterexample :
    (read_csv_into_mapping_dict [["f", "r"], ["a", "b"], ["", ""]] "f" "r" =
        .error .blankFindValue) ∧
      (read_csv_into_mapping_dict [["f", "r", "g"], ["a", "b", "c"], ["", ""]] "f" "r" =
        .error (.brokenRow [3])) :=
  ⟨rfl, rfl⟩

/-- C7 (amended): every data row with zero cells is permitted and skipped by
the loader: inserting it anywhere among data rows that are structurally valid
changes neither the outcome nor the mapping; rows whose cells are all blank
but number the header's width are materialized instead (contributing a blank
find key), and other nonzero blank widths are broken lines. -/
theorem C7_zero_cell_rows_skipped (header : List String)
    (pre post : List (List String)) (f r : String)
    (h : ∀ row ∈ pre ++ post, row.length = 0 ∨ row.length = header.length) :
    read_csv_into_mapping_dict (header :: (pre ++ [] :: post)) f r =
      read_csv_into_mapping_dict (header :: (pre ++ post)) f r := by
  have h1 : ∀ row ∈ pre ++ [] :: post, row.length = 0 ∨ row.length = header.length := by
    intro row hrow
    rcases List.mem_append.mp hrow with hrow | hrow
    · exact h row (List.mem_append.mpr (Or.inl hrow))
    · rcases List.mem_cons.mp hrow with rfl | hrow
      · exact Or.inl rfl
      · exact h row (List.mem_append.mpr (Or.inr hrow))
  have hb1 : broken_line_ids header.length (pre ++ [] :: post) = [] :=
    broken_line_ids_eq_nil _ _ h1
  have hb2 : broken_line_ids header.length (pre ++ post) = [] :=
    broken_line_ids_eq_nil _ _ h
  have hfilter : ((pre ++ [] :: post).filter fun row => row.length ≠ 0) =
      ((pre ++ post).filter fun row => row.length ≠ 0) := by
    simp [List.filter_append]
  have hrc : read_csv (header :: (pre ++ [] :: post)) false [f, r] =
      read_csv (header :: (pre ++ post)) false [f, r] := by
    simp only [read_csv, hb1, hb2, hfilter]
  simp only [read_csv_into_mapping_dict, hrc]

/-- Witness for the amended C7: an interposed zero-cell row leaves the load
result unchanged. -/
theorem C7_zero_cell_rows_skipped_witness :
    read_csv_into_mapping_dict [["f", "r"], ["a", "b"], [], ["c", "d"]] "f" "r" =
      read_csv_into_mapping_dict [["f", "r"], ["a", "b"], ["c", "d"]] "f" "r" :=
  C7_zero_cell_rows_skipped ["f", "r"] [["a", "b"]] [["c", "d"]] "f" "r" (by decide)

/-- C8 counterexample: a source containing a blank find cell does NOT always
fail with the blank-find error: when duplicated find values are also present,
the duplicated-find error is raised instead. -/
theorem C8_counterexample :
    (read_csv_into_mapping_dict [["f", "r"], ["x", "1"], ["x", "2"], ["", "3"]] "f" "r" =
        .error (.duplicatedFindValue ["x"])) ∧
      read_csv_into_mapping_dict [["f", "r"], ["x", "1"], ["x", "2"], ["", "3"]] "f" "r" ≠
        .error .blankFindValue := by
  refine ⟨rfl, fun h => ?_⟩
  have h2 := Except.error.inj
    ((show read_csv_into_mapping_dict [["f", "r"], ["x", "1"], ["x", "2"], ["", "3"]] "f" "r" =
        (.error (.duplicatedFindValue ["x"]) : Except LoadError (List (String × String)))
      from rfl).symm.trans h)
  exact LoadError.noConfusion h2

/-- C8 (amended): when the tabular read succeeds and no find value is
duplicated, a data row whose find cell is the empty string makes the load
fail with the blank-find error; an earlier failing check takes precedence
otherwise. -/
theorem C8_blank_find_rejection (rows : List (List String)) (f r : String)
    (headers : List String) (df : List (List String))
    (hok : read_csv rows false [f, r] = .ok (headers, df))
    (hdup : (create_mapping_dict_from_df (extract_pairs headers df f r)).2 = [])
    (hblank : ∃ row ∈ df, row.getD (headers.indexOf f) "" = "") :
    read_csv_into_mapping_dict rows f r = .error .blankFindValue := by
  apply load_blank_find rows f r headers df hok hdup
  obtain ⟨row, hrow, hcell⟩ := hblank
  rw [create_mapping_dict_from_df, createMappingAux_lookup, List.lookup_nil,
    Option.none_or, Option.isSome_map']
  rw [List.find?_isSome]
  refine ⟨(row.getD (headers.indexOf f) "", row.getD (headers.indexOf r) ""), ?_, ?_⟩
  · exact List.mem_map_of_mem _ hrow
  · simpa using hcell

/-- Witness for the amended C8: a single blank find cell fails the load with
the blank-find error. -/
theorem C8_blank_find_rejection_witness :
    read_csv_into_mapping_dict [["f", "r"], ["", "1"]] "f" "r" =
      .error .blankFindValue :=
  C8_blank_find_rejection [["f", "r"], ["", "1"]] "f" "r" ["f", "r"] [["", "1"]]
    (by rfl) (by rfl) (by decide)

/-- C9: a source whose requested columns are present exactly once but which
has no data row below the header fails with the empty-result-set error. -/
theorem C9_header_only_empty (header : List String) (f r : String)
    (hf : header.count f = 1) (hr : header.count r = 1) :
    read_csv_into_mapping_dict [header] f r = .error .emptyResultSet := by
  apply load_of_read_csv_error
  apply read_csv_empty
  · refine filter_not_contains_eq_nil header [f, r] ?_
    intro c hc
    rcases List.mem_pair.mp hc with rfl | rfl
    · exact List.count_pos_iff.mp (by omega)
    · exact List.count_pos_iff.mp (by omega)
  · refine filter_count_gt_eq_nil header [f, r] ?_
    intro c hc
    rcases List.mem_pair.mp hc with rfl | rfl <;> omega
  · rfl
  · rfl

/-- Witness for C9 at a concrete header-only source. -/
theorem C9_header_only_empty_witness :
    read_csv_into_mapping_dict [["f", "r"]] "f" "r" = .error .emptyResultSet :=
  C9_header_only_empty ["f", "r"] "f" "r" (by decide) (by decide)

/-- C10: when the find column and the replace column are the same requested
name and the load succeeds, every mapping entry maps its find string to
itself and `replace_text` is the identity on every input. -/
theorem C10_same_columns_identity (rows : List (List String)) (col : String)
    (m : List (String × String))
    (h : read_csv_into_mapping_dict rows col col = .ok m) :
    (∀ p ∈ m, p.1 = p.2) ∧ ∀ s, replace_text m s = s := by
  cases hrc : read_csv rows false [col, col] with
  | error e =>
    rw [load_of_read_csv_error rows col col e hrc] at h
    exact Except.noConfusion h
  | ok pr =>
    obtain ⟨headers, df⟩ := pr
    by_cases hd : (create_mapping_dict_from_df (extract_pairs headers df col col)).2 = []
    · by_cases hb :
        (((create_mapping_dict_from_df (extract_pairs headers df col col)).1).lookup "").isSome
      · rw [load_blank_find rows col col headers df hrc hd hb] at h
        exact Except.noConfusion h
      · rw [load_ok rows col col headers df hrc hd hb] at h
        have hm : m = (create_mapping_dict_from_df (extract_pairs headers df col col)).1 :=
          (Except.ok.inj h).symm
        subst hm
        have hps : ∀ p ∈ (create_mapping_dict_from_df (extract_pairs headers df col col)).1,
            p.1 = p.2 := by
          intro p hp
          rcases createMappingAux_fst_subset _ [] [] p hp with hp' | hp'
          · exact absurd hp' (List.not_mem_nil p)
          · obtain ⟨row, hrow, hpe⟩ := List.mem_map.mp hp'
            rw [← hpe]
        refine ⟨hps, ?_⟩
        intro s
        apply replace_text_self_id
        intro p hp
        refine ⟨hps p hp, ?_⟩
        intro hkey
        apply hb
        rw [List.lookup_isSome_iff]
        exact ⟨p, hp, by simp [hkey]⟩
    · rw [load_duplicated_find rows col col headers df hrc hd] at h
      exact Except.noConfusion h

/-- Witness for C10 at a concrete one-column source. -/
theorem C10_same_columns_identity_witness :
    read_csv_into_mapping_dict [["c"], ["a"]] "c" "c" = .ok [("a", "a")] ∧
      replace_text [("a", "a")] "hello" = "hello" :=
  ⟨rfl, (C10_same_columns_identity [["c"], ["a"]] "c" [("a", "a")] rfl).2 "hello"⟩

end ReplaceTxts
